import Mathlib

/-!
# cheap-switch-snmp: the collection-and-publication engine

A shallow embedding of `main.go`: the `Switch`, `Config` and `Port` records, the global
`portStats` map with the update performed by one iteration of `collectSwitchStats`, the
initialisation loop of `main`, and the translation `snmpHandler` of the store into SNMP
variables, followed by the properties of the specification that concern them.

Modelling conventions.

* A Go `map[string]V` is an association list with pairwise distinct keys (`GoMap V`).  The order
  of the entries stands for the order in which a `range` loop visits the map, which Go leaves
  unspecified; statements about the result of a `range` loop are therefore made up to
  permutation, and two association lists denote the same Go map when every key has the same
  lookup in both.
* Go `int` is `Int`; where the width matters the range of a 64-bit `int` is a hypothesis.  The
  conversion `uint64(x)` is reduction modulo `2^64`.
* The two global variables `portStats` and the process log form the explicit state `World`.
  `statsMux` makes every store update and every handler run atomic, so an execution is a
  sequence of such atomic steps.
* `fetchSwitchStats` performs HTTP I/O and is not part of `main.go`; its result in a cycle is an
  input of the cycle (`Except String PortMap`, the error being its message).
-/

namespace CheapSwitchSnmp

/-! ## Data model -/

/-- A Go `map[string]V`: association list with distinct keys. -/
abbrev GoMap (V : Type) : Type := AList (fun _ : String => V)

/-- `type Switch struct`. -/
structure Switch where
  Address : String
  Username : String
  Password : String
  Name : String
  deriving DecidableEq, Repr

/-- `type Config struct`. -/
structure Config where
  Switches : List Switch
  SNMPPort : Nat
  SNMPCommunity : String
  deriving DecidableEq, Repr

/-- `type Port struct`; the counters are Go `int`. -/
structure Port where
  Name : String
  State : String
  LinkStatus : String
  TxGoodPkt : Int
  TxBadPkt : Int
  RxGoodPkt : Int
  RxBadPkt : Int
  deriving DecidableEq, Repr

/-- The value of `map[string]Port`. -/
abbrev PortMap : Type := GoMap Port

/-- The type of the global `portStats`: `map[string]map[string]Port`. -/
abbrev Store : Type := GoMap PortMap

/-- The constant `baseOID`. -/
def baseOID : String := ".1.3.6.1.4.1.12345"

/-- The two `gosnmp.Asn1BER` tags used by the handler. -/
inductive Asn1BER where
  | Integer
  | Counter64
  deriving DecidableEq, Repr

/-- The dynamic value stored in `SnmpPDU.Value` (an `interface{}`): the handler stores either a Go
`int` or a `uint64`. -/
inductive PDUValue where
  | int (v : Int)
  | uint64 (v : Nat)
  deriving DecidableEq, Repr

/-- The fields of `gosnmp.SnmpPDU` that the handler sets (`Type_` is the Go field `Type`, a
reserved word here). -/
structure SnmpPDU where
  Name : String
  Type_ : Asn1BER
  Value : PDUValue
  deriving DecidableEq, Repr

/-- The fields of `gosnmp.SnmpPacket` relevant here: the request carries the community, a request
identifier and the requested variables; the response built by the handler sets only
`Variables`, every other field keeping its zero value. -/
structure SnmpPacket where
  Community : String
  RequestID : Nat
  Variables : List SnmpPDU
  deriving DecidableEq, Repr

/-- The global mutable state of the process: the store `portStats` and the lines written with
`log.Printf` (without the time stamp that the logger puts in front). -/
structure World where
  portStats : Store
  log : List String
  deriving DecidableEq

/-! ## Operations -/

/-- `func stateToInt(state string) int`. -/
def stateToInt (state : String) : Int :=
  if state = "Enable" then 1 else 0

/-- `func linkStatusToInt(status string) int`. -/
def linkStatusToInt (status : String) : Int :=
  if status = "Link Up" then 1 else 0

/-- The Go conversion `uint64(x)` of an `int`: the two's complement bits read as unsigned. -/
def uint64 (x : Int) : Nat :=
  (x % 2 ^ 64).toNat

/-- `fmt.Sprintf("%s.%s.%s", baseOID, switchName, portName)`. -/
def sprintfOid (base switchName portName : String) : String :=
  base ++ "." ++ switchName ++ "." ++ portName

/-- The body of the inner loop of `snmpHandler`: the six variables appended for one port. -/
def appendPort (vars : List SnmpPDU) (switchName portName : String) (port : Port) :
    List SnmpPDU :=
  let oid := sprintfOid baseOID switchName portName
  vars ++
    [ { Name := oid ++ ".state", Type_ := Asn1BER.Integer,
        Value := PDUValue.int (stateToInt port.State) },
      { Name := oid ++ ".linkStatus", Type_ := Asn1BER.Integer,
        Value := PDUValue.int (linkStatusToInt port.LinkStatus) },
      { Name := oid ++ ".txGoodPkt", Type_ := Asn1BER.Counter64,
        Value := PDUValue.uint64 (uint64 port.TxGoodPkt) },
      { Name := oid ++ ".txBadPkt", Type_ := Asn1BER.Counter64,
        Value := PDUValue.uint64 (uint64 port.TxBadPkt) },
      { Name := oid ++ ".rxGoodPkt", Type_ := Asn1BER.Counter64,
        Value := PDUValue.uint64 (uint64 port.RxGoodPkt) },
      { Name := oid ++ ".rxBadPkt", Type_ := Asn1BER.Counter64,
        Value := PDUValue.uint64 (uint64 port.RxBadPkt) } ]

/-- `func snmpHandler(packet) (*SnmpPacket, error)`, run against the store `portStats`.  The
second component is the returned `error` (`none` is `nil`). -/
def snmpHandler (portStats : Store) (_packet : SnmpPacket) : SnmpPacket × Option String :=
  let response : SnmpPacket := { Community := "", RequestID := 0, Variables := [] }
  let vars :=
    portStats.entries.foldl
      (fun vars sw =>
        sw.2.entries.foldl (fun vars p => appendPort vars sw.1 p.1 p.2) vars)
      response.Variables
  ({ response with Variables := vars }, none)

/-- The line logged by `collectSwitchStats` when the fetch fails:
`"Error collecting stats from %s (%s): %v"`. -/
def collectErrorLine (sw : Switch) (err : String) : String :=
  "Error collecting stats from " ++ sw.Name ++ " (" ++ sw.Address ++ "): " ++ err

/-- One iteration of the `for range ticker.C` loop of `collectSwitchStats`, given the result of
`fetchSwitchStats` in that iteration. -/
def collectCycle (sw : Switch) (fetched : Except String PortMap) (w : World) : World :=
  match fetched with
  | Except.error err => { w with log := w.log ++ [collectErrorLine sw err] }
  | Except.ok stats => { w with portStats := w.portStats.insert sw.Name stats }

/-- The first `fetches.length` iterations of the loop of `collectSwitchStats(sw)`. -/
def collectSwitchStats (sw : Switch) (fetches : List (Except String PortMap)) (w : World) :
    World :=
  fetches.foldl (fun w fetched => collectCycle sw fetched w) w

/-- The state of the globals when `main` starts: `portStats` is an empty map. -/
def World.start : World :=
  { portStats := ∅, log := [] }

/-- The first loop of `main`: `portStats[sw.Name] = make(map[string]Port)` for every configured
switch, from the state `w`. -/
def initLoop (config : Config) (w : World) : World :=
  config.Switches.foldl
    (fun w sw => { w with portStats := w.portStats.insert sw.Name (∅ : PortMap) }) w

/-- The state of the globals after the initialisation loop of `main`. -/
def mainInit (config : Config) : World :=
  initLoop config World.start

/-- An interleaving of collector cycles: each event is one atomic cycle of the collector of a
switch with the result of its fetch. -/
def runCycles (events : List (Switch × Except String PortMap)) (w : World) : World :=
  events.foldl (fun w ev => collectCycle ev.1 ev.2 w) w

/-! ## Specification-side definitions

The definitions below are not translations of code: they spell out the vocabulary of the
specification (the objects of one port, the triples of a store, a read of one port) so that the
code above can be compared with it. -/

/-- The six protocol objects that the specification associates with the switch name `s`, the port
key `p` and the record `r`, with the identifiers written out as in the specification. -/
def portObjects (s p : String) (r : Port) : List SnmpPDU :=
  [ { Name := ".1.3.6.1.4.1.12345." ++ s ++ "." ++ p ++ ".state", Type_ := Asn1BER.Integer,
      Value := PDUValue.int (stateToInt r.State) },
    { Name := ".1.3.6.1.4.1.12345." ++ s ++ "." ++ p ++ ".linkStatus", Type_ := Asn1BER.Integer,
      Value := PDUValue.int (linkStatusToInt r.LinkStatus) },
    { Name := ".1.3.6.1.4.1.12345." ++ s ++ "." ++ p ++ ".txGoodPkt", Type_ := Asn1BER.Counter64,
      Value := PDUValue.uint64 (uint64 r.TxGoodPkt) },
    { Name := ".1.3.6.1.4.1.12345." ++ s ++ "." ++ p ++ ".txBadPkt", Type_ := Asn1BER.Counter64,
      Value := PDUValue.uint64 (uint64 r.TxBadPkt) },
    { Name := ".1.3.6.1.4.1.12345." ++ s ++ "." ++ p ++ ".rxGoodPkt", Type_ := Asn1BER.Counter64,
      Value := PDUValue.uint64 (uint64 r.RxGoodPkt) },
    { Name := ".1.3.6.1.4.1.12345." ++ s ++ "." ++ p ++ ".rxBadPkt", Type_ := Asn1BER.Counter64,
      Value := PDUValue.uint64 (uint64 r.RxBadPkt) } ]

/-- The triples (switch name, port key, record) of a store, in the order in which the two nested
`range` loops of the handler visit them. -/
def rows (st : Store) : List (String × String × Port) :=
  st.entries.flatMap fun sw => sw.2.entries.map fun p => (sw.1, p.1, p.2)

/-- The concatenation, over the triples of the store, of the six objects of each. -/
def specObjects (st : Store) : List SnmpPDU :=
  (rows st).flatMap fun t => portObjects t.1 t.2.1 t.2.2

/-- The objects of one switch entry: the six objects of each of its ports. -/
def switchObjects (s : String) (m : PortMap) : List SnmpPDU :=
  m.entries.flatMap fun p => portObjects s p.1 p.2

/-- The Go read `portStats[s][p]` with its presence flag: `none` when the switch or the port is
not a key. -/
def portAt (st : Store) (s p : String) : Option Port :=
  (st.lookup s).bind fun m => m.lookup p

/-- The store of the end-to-end example of the specification; `nm` is the `Name` field of the
record, which the example leaves open. -/
def exampleStore (nm : String) : Store :=
  AList.insert "sw1"
    (AList.insert "eth0"
      { Name := nm, State := "Enable", LinkStatus := "Link Up",
        TxGoodPkt := 100, TxBadPkt := 0, RxGoodPkt := 200, RxBadPkt := 1 } ∅) ∅

/-- The name contains no path separator `.`. -/
abbrev dotFree (s : String) : Prop := '.' ∉ s.data

/-- The six field suffixes that the handler appends to the identifier of a port. -/
def fieldSuffixes : List String :=
  [".state", ".linkStatus", ".txGoodPkt", ".txBadPkt", ".rxGoodPkt", ".rxBadPkt"]

/-- The identifier of the object `o` begins with `baseOID ++ "." ++ s ++ "."`: read as a path, it
lies under the switch name `s`. -/
def startsWithOid (s : String) (o : SnmpPDU) : Bool :=
  (baseOID ++ "." ++ s ++ ".").data.isPrefixOf o.Name.data

/-- The port map delivered by the last successful fetch for the switch name `name` in a sequence
of cycles, if there is one. -/
def lastFetched (name : String) : List (Switch × Except String PortMap) → Option PortMap
  | [] => none
  | ev :: evs =>
    match lastFetched name evs with
    | some m => some m
    | none =>
      match ev.2 with
      | Except.ok m => if ev.1.Name = name then some m else none
      | Except.error _ => none

/-! ## Sample data

Concrete configurations, stores and requests on which the statements below are evaluated. -/

/-- A configured switch named `"sw1"`. -/
def sampleSwitch1 : Switch :=
  { Address := "10.0.0.1", Username := "admin", Password := "secret", Name := "sw1" }

/-- A configured switch named `"sw2"`. -/
def sampleSwitch2 : Switch :=
  { Address := "10.0.0.2", Username := "admin", Password := "secret", Name := "sw2" }

/-- A configuration with the two sample switches. -/
def sampleConfig : Config :=
  { Switches := [sampleSwitch1, sampleSwitch2], SNMPPort := 161, SNMPCommunity := "public" }

/-- A configuration in which a switch name is repeated. -/
def repeatedConfig : Config :=
  { Switches := [sampleSwitch1, sampleSwitch2, sampleSwitch1], SNMPPort := 161,
    SNMPCommunity := "public" }

/-- A port record with the given counters. -/
def samplePort (name : String) (tx txBad rx rxBad : Int) : Port :=
  { Name := name, State := "Enable", LinkStatus := "Link Down",
    TxGoodPkt := tx, TxBadPkt := txBad, RxGoodPkt := rx, RxBadPkt := rxBad }

/-- A fetched port map with the ports `"p1"` and `"p2"`. -/
def samplePorts12 : PortMap :=
  AList.insert "p1" (samplePort "Port 1" 10 0 20 0)
    (AList.insert "p2" (samplePort "Port 2" 30 1 40 2) ∅)

/-- A fetched port map with the port `"p2"` only; its bad-packet counter is negative. -/
def samplePorts2 : PortMap :=
  AList.insert "p2" (samplePort "Port 2" 35 (-1) 45 2) ∅

/-- A state in which `"sw1"` holds the ports `"p1"` and `"p2"` and `"sw2"` holds none. -/
def sampleWorld : World :=
  collectCycle sampleSwitch1 (Except.ok samplePorts12) (mainInit sampleConfig)

/-- A request for the sub-tree of `"sw2"`. -/
def sampleRequest : SnmpPacket :=
  { Community := "public", RequestID := 7,
    Variables := [⟨".1.3.6.1.4.1.12345.sw2", Asn1BER.Integer, PDUValue.int 0⟩] }

/-- An interleaving of cycles of the two sample switches, one of them failing. -/
def sampleEvents : List (Switch × Except String PortMap) :=
  [ (sampleSwitch1, Except.ok samplePorts12),
    (sampleSwitch2, Except.error "connection refused"),
    (sampleSwitch1, Except.ok samplePorts2) ]

/-- A store in which a switch name and a port key contain the separator. -/
def dottedStore : Store :=
  AList.insert "a" (AList.insert "b.c" (samplePort "x" 1 0 0 0) ∅)
    (AList.insert "a.b" (AList.insert "c" (samplePort "y" 2 0 0 0) ∅) ∅)

/-! ## The handler as a concatenation -/

theorem sprintfOid_append (s p f : String) :
    sprintfOid baseOID s p ++ f = ".1.3.6.1.4.1.12345." ++ s ++ "." ++ p ++ f := by
  simp [sprintfOid, baseOID, String.append_assoc]

theorem appendPort_eq (vars : List SnmpPDU) (s p : String) (r : Port) :
    appendPort vars s p r = vars ++ portObjects s p r := by
  simp only [appendPort, portObjects, sprintfOid_append]

theorem foldl_appendPort (s : String) (ps : List (Sigma fun _ : String => Port))
    (vars : List SnmpPDU) :
    ps.foldl (fun vars p => appendPort vars s p.1 p.2) vars
      = vars ++ ps.flatMap fun p => portObjects s p.1 p.2 := by
  induction ps generalizing vars with
  | nil => simp
  | cons p ps ih =>
    rw [List.foldl_cons, ih, appendPort_eq, List.flatMap_cons, List.append_assoc]

theorem foldl_switches (es : List (Sigma fun _ : String => PortMap)) (vars : List SnmpPDU) :
    es.foldl
        (fun vars sw => sw.2.entries.foldl (fun vars p => appendPort vars sw.1 p.1 p.2) vars)
        vars
      = vars ++ es.flatMap fun sw => switchObjects sw.1 sw.2 := by
  induction es generalizing vars with
  | nil => simp
  | cons e es ih =>
    rw [List.foldl_cons, ih, foldl_appendPort, List.flatMap_cons, List.append_assoc]
    rfl

/-- The variables of the response are the objects of the store entries, entry after entry. -/
theorem snmpHandler_variables_entries (st : Store) (pkt : SnmpPacket) :
    (snmpHandler st pkt).1.Variables = st.entries.flatMap fun sw => switchObjects sw.1 sw.2 := by
  simp only [snmpHandler, foldl_switches, List.nil_append]

theorem specObjects_entries (st : Store) :
    specObjects st = st.entries.flatMap fun sw => switchObjects sw.1 sw.2 := by
  simp [specObjects, rows, switchObjects, List.flatMap_assoc, List.flatMap_map]

/-- The variables of the response are the objects of the triples of the store. -/
theorem snmpHandler_variables (st : Store) (pkt : SnmpPacket) :
    (snmpHandler st pkt).1.Variables = specObjects st := by
  rw [snmpHandler_variables_entries, specObjects_entries]

theorem snmpHandler_error (st : Store) (pkt : SnmpPacket) : (snmpHandler st pkt).2 = none :=
  rfl

/-! ## The triples of a store -/

theorem mem_entries_iff_lookup {V : Type} (m : GoMap V) (k : String) (v : V) :
    (⟨k, v⟩ : Sigma fun _ : String => V) ∈ m.entries ↔ m.lookup k = some v := by
  rw [← Option.mem_def, AList.mem_lookup_iff]

theorem mem_rows (st : Store) (s p : String) (r : Port) :
    (s, p, r) ∈ rows st ↔ ∃ m, st.lookup s = some m ∧ m.lookup p = some r := by
  simp only [rows, List.mem_flatMap, List.mem_map, Prod.mk.injEq]
  constructor
  · rintro ⟨⟨s1, m⟩, hm, ⟨p1, r1⟩, hp, rfl, rfl, rfl⟩
    exact ⟨m, (mem_entries_iff_lookup st _ m).1 hm, (mem_entries_iff_lookup m _ _).1 hp⟩
  · rintro ⟨m, hm, hp⟩
    exact ⟨⟨s, m⟩, (mem_entries_iff_lookup st s m).2 hm, ⟨p, r⟩,
      (mem_entries_iff_lookup m p r).2 hp, rfl, rfl, rfl⟩

theorem mem_rows_iff_portAt (st : Store) (s p : String) (r : Port) :
    (s, p, r) ∈ rows st ↔ portAt st s p = some r := by
  rw [mem_rows, portAt]
  cases h : st.lookup s <;> simp

theorem rows_nodup (st : Store) : (rows st).Nodup := by
  rw [rows, List.nodup_flatMap]
  refine ⟨fun sw _ => ?_, ?_⟩
  · refine List.Nodup.map ?_ sw.2.nodupKeys.nodup
    rintro ⟨p1, r1⟩ ⟨p2, r2⟩ h
    simp only [Prod.mk.injEq] at h
    obtain ⟨-, rfl, rfl⟩ := h
    rfl
  · refine (List.nodupKeys_iff_pairwise.1 st.nodupKeys).imp ?_
    intro a b hab t ha hb
    simp only [List.mem_map] at ha hb
    obtain ⟨_, _, rfl⟩ := ha
    obtain ⟨_, _, h⟩ := hb
    simp only [Prod.mk.injEq] at h
    exact hab h.1.symm

/-- Two association lists that answer every port read alike have the same triples up to order. -/
theorem rows_perm_of_portAt (st1 st2 : Store)
    (h : ∀ s p, portAt st1 s p = portAt st2 s p) : (rows st1).Perm (rows st2) := by
  rw [List.perm_ext_iff_of_nodup (rows_nodup st1) (rows_nodup st2)]
  rintro ⟨s, p, r⟩
  rw [mem_rows_iff_portAt, mem_rows_iff_portAt, h]

theorem specObjects_perm_of_portAt (st1 st2 : Store)
    (h : ∀ s p, portAt st1 s p = portAt st2 s p) : (specObjects st1).Perm (specObjects st2) :=
  List.Perm.flatMap_right _ (rows_perm_of_portAt st1 st2 h)

/-! ## C1: the objects of a response -/

/-- **C1.** For every store and request, the variables returned by `snmpHandler` are, up to order,
the concatenation over the triples (switch name, port key, record) of the store of the six
objects `portObjects` (identifier `".1.3.6.1.4.1.12345." ++ s ++ "." ++ p ++ field`, `Integer`
for `state` and `linkStatus` with the values of `stateToInt` and `linkStatusToInt`, `Counter64`
for the four counters); the triples are exactly those with `r` stored under port key `p` of
switch `s`, each occurring once; the port segment is the map key and not the `Name` field of
the record; and the store of the end-to-end example yields exactly the six listed objects. -/
theorem snmpHandler_objects (st : Store) (pkt : SnmpPacket) :
    ((snmpHandler st pkt).1.Variables).Perm (specObjects st) ∧
    (∀ s p r, (s, p, r) ∈ rows st ↔ ∃ m, st.lookup s = some m ∧ m.lookup p = some r) ∧
    (rows st).Nodup ∧
    (∀ nm : String, (snmpHandler (exampleStore nm) pkt).1.Variables =
      [ ⟨".1.3.6.1.4.1.12345.sw1.eth0.state", Asn1BER.Integer, PDUValue.int 1⟩,
        ⟨".1.3.6.1.4.1.12345.sw1.eth0.linkStatus", Asn1BER.Integer, PDUValue.int 1⟩,
        ⟨".1.3.6.1.4.1.12345.sw1.eth0.txGoodPkt", Asn1BER.Counter64, PDUValue.uint64 100⟩,
        ⟨".1.3.6.1.4.1.12345.sw1.eth0.txBadPkt", Asn1BER.Counter64, PDUValue.uint64 0⟩,
        ⟨".1.3.6.1.4.1.12345.sw1.eth0.rxGoodPkt", Asn1BER.Counter64, PDUValue.uint64 200⟩,
        ⟨".1.3.6.1.4.1.12345.sw1.eth0.rxBadPkt", Asn1BER.Counter64, PDUValue.uint64 1⟩ ]) := by
  refine ⟨?_, mem_rows st, rows_nodup st, fun nm => rfl⟩
  rw [snmpHandler_variables]

/-! ## C2: the encoding of state and link status -/

/-- **C2.** `stateToInt s` is `1` exactly when `s` is `"Enable"` and `0` exactly when it is not;
`linkStatusToInt s` is `1` exactly when `s` is `"Link Up"` and `0` exactly when it is not; both
are total functions with values in `{0, 1}`, and near misses such as `"enable"`, `"Enabled"`,
`"Link up"` and the empty string give `0`. -/
theorem encoding_law (s : String) :
    (stateToInt s = 1 ↔ s = "Enable") ∧ (stateToInt s = 0 ↔ s ≠ "Enable") ∧
    (linkStatusToInt s = 1 ↔ s = "Link Up") ∧ (linkStatusToInt s = 0 ↔ s ≠ "Link Up") ∧
    (stateToInt s = 0 ∨ stateToInt s = 1) ∧ (linkStatusToInt s = 0 ∨ linkStatusToInt s = 1) ∧
    stateToInt "Enable" = 1 ∧ linkStatusToInt "Link Up" = 1 ∧
    stateToInt "enable" = 0 ∧ stateToInt "Enabled" = 0 ∧ stateToInt "" = 0 ∧
    stateToInt "Link Up" = 0 ∧ linkStatusToInt "Link up" = 0 ∧ linkStatusToInt "" = 0 ∧
    linkStatusToInt "Enable" = 0 := by
  refine ⟨?_, ?_, ?_, ?_, ?_, ?_, by decide, by decide, by decide, by decide, by decide,
    by decide, by decide, by decide, by decide⟩
  all_goals simp only [stateToInt, linkStatusToInt]
  all_goals split_ifs with h <;> simp [h]

/-! ## C3: a failed cycle -/

/-- **C3.** A collector cycle whose fetch fails leaves the store as it was: the map `portStats`
is unchanged, hence so is the port map of every switch (the failing one included) and the
answer of `snmpHandler` to any request; the only effect of the cycle is the logged line. -/
theorem failed_cycle_noop (w : World) (sw : Switch) (err : String) (pkt : SnmpPacket) :
    (collectCycle sw (Except.error err) w).portStats = w.portStats ∧
    (∀ s, (collectCycle sw (Except.error err) w).portStats.lookup s = w.portStats.lookup s) ∧
    snmpHandler (collectCycle sw (Except.error err) w).portStats pkt
      = snmpHandler w.portStats pkt ∧
    (collectCycle sw (Except.error err) w).log = w.log ++ [collectErrorLine sw err] :=
  ⟨rfl, fun _ => rfl, rfl, rfl⟩


/-! ## Identifiers as paths -/

/-- Two lists that agree after a separator-free head and the separator agree piecewise. -/
theorem split_first {α : Type} (c : α) :
    ∀ (a a1 b b1 : List α), c ∉ a → c ∉ a1 → a ++ c :: b = a1 ++ c :: b1 → a = a1 ∧ b = b1
  | [], [], b, b1, _, _, h => ⟨rfl, by simpa using h⟩
  | [], x :: a1, b, b1, _, h1, h => by
      simp only [List.nil_append, List.cons_append, List.cons.injEq] at h
      exact absurd (h.1 ▸ List.mem_cons_self _ _) h1
  | x :: a, [], b, b1, h0, _, h => by
      simp only [List.nil_append, List.cons_append, List.cons.injEq] at h
      exact absurd (h.1 ▸ List.mem_cons_self _ _) h0
  | x :: a, y :: a1, b, b1, h0, h1, h => by
      simp only [List.cons_append, List.cons.injEq] at h
      obtain ⟨ha, hb⟩ := split_first c a a1 b b1 (fun hm => h0 (List.mem_cons_of_mem _ hm))
        (fun hm => h1 (List.mem_cons_of_mem _ hm)) h.2
      exact ⟨by rw [h.1, ha], hb⟩

theorem split_last {α : Type} (c : α) (a a1 b b1 : List α) (hb : c ∉ b) (hb1 : c ∉ b1)
    (h : a ++ c :: b = a1 ++ c :: b1) : a = a1 ∧ b = b1 := by
  have h2 := congrArg List.reverse h
  simp only [List.reverse_append, List.reverse_cons, List.append_assoc, List.singleton_append]
    at h2
  obtain ⟨h3, h4⟩ := split_first c b.reverse b1.reverse a.reverse a1.reverse
    (by simpa using hb) (by simpa using hb1) h2
  exact ⟨List.reverse_injective h4, List.reverse_injective h3⟩

theorem fieldSuffixes_shape :
    ∀ f ∈ fieldSuffixes, f.data = '.' :: f.data.tail ∧ '.' ∉ f.data.tail := by
  decide

theorem sprintfOid_data (s p f : String) :
    (sprintfOid baseOID s p ++ f).data
      = baseOID.data ++ '.' :: (s.data ++ '.' :: (p.data ++ f.data)) := by
  simp [sprintfOid, String.data_append]

theorem oid_injective (s p f s1 p1 f1 : String) (hs : dotFree s) (hs1 : dotFree s1)
    (hf : f ∈ fieldSuffixes) (hf1 : f1 ∈ fieldSuffixes)
    (h : sprintfOid baseOID s p ++ f = sprintfOid baseOID s1 p1 ++ f1) :
    s = s1 ∧ p = p1 ∧ f = f1 := by
  have h2 := congrArg String.data h
  rw [sprintfOid_data, sprintfOid_data] at h2
  have h3 := List.append_cancel_left h2
  simp only [List.cons.injEq, true_and] at h3
  obtain ⟨h4, h5⟩ := split_first '.' _ _ _ _ hs hs1 h3
  obtain ⟨e, n⟩ := fieldSuffixes_shape f hf
  obtain ⟨e1, n1⟩ := fieldSuffixes_shape f1 hf1
  rw [e, e1] at h5
  obtain ⟨h6, h7⟩ := split_last '.' _ _ _ _ n n1 h5
  refine ⟨String.ext h4, String.ext h6, String.ext ?_⟩
  rw [e, e1, h7]


theorem portObjects_names (s p : String) (r : Port) :
    (portObjects s p r).map SnmpPDU.Name
      = fieldSuffixes.map fun f => sprintfOid baseOID s p ++ f := by
  simp [portObjects, fieldSuffixes, sprintfOid_append]

theorem specObjects_names (st : Store) :
    (specObjects st).map SnmpPDU.Name
      = (rows st).flatMap fun t =>
          fieldSuffixes.map fun f => sprintfOid baseOID t.1 t.2.1 ++ f := by
  simp only [specObjects, List.map_flatMap, portObjects_names]

theorem mem_portObjects_name (s p : String) (r : Port) (o : SnmpPDU)
    (h : o ∈ portObjects s p r) : ∃ f ∈ fieldSuffixes, o.Name = sprintfOid baseOID s p ++ f := by
  have h1 : o.Name ∈ (portObjects s p r).map SnmpPDU.Name := List.mem_map_of_mem _ h
  rw [portObjects_names, List.mem_map] at h1
  obtain ⟨f, hf, e⟩ := h1
  exact ⟨f, hf, e.symm⟩

theorem mem_specObjects (st : Store) (o : SnmpPDU) :
    o ∈ specObjects st ↔ ∃ s p r, (s, p, r) ∈ rows st ∧ o ∈ portObjects s p r := by
  simp only [specObjects, List.mem_flatMap]
  constructor
  · rintro ⟨⟨s, p, r⟩, h1, h2⟩
    exact ⟨s, p, r, h1, h2⟩
  · rintro ⟨s, p, r, h1, h2⟩
    exact ⟨(s, p, r), h1, h2⟩

theorem mem_keys_of_mem_rows (st : Store) (s p : String) (r : Port) (h : (s, p, r) ∈ rows st) :
    s ∈ st.keys := by
  obtain ⟨m, hm, -⟩ := (mem_rows st s p r).1 h
  rw [← AList.mem_keys, ← AList.lookup_isSome, hm]
  rfl

theorem string_append_left_injective (a : String) :
    Function.Injective (fun f : String => a ++ f) := by
  intro f g h
  have h2 := congrArg String.data h
  simp only [String.data_append] at h2
  exact String.ext (List.append_cancel_left h2)

theorem names_nodup (st : Store) (hs : ∀ s ∈ st.keys, dotFree s) :
    ((specObjects st).map SnmpPDU.Name).Nodup := by
  rw [specObjects_names, List.nodup_flatMap]
  refine ⟨fun t _ => ?_, ?_⟩
  · exact List.Nodup.map (string_append_left_injective _) (by decide)
  · refine List.Pairwise.imp_of_mem ?_ (rows_nodup st)
    rintro ⟨s, p, r⟩ ⟨s1, p1, r1⟩ ha hb hne n hn hn1
    simp only [List.mem_map] at hn hn1
    obtain ⟨f, hf, rfl⟩ := hn
    obtain ⟨f1, hf1, e⟩ := hn1
    obtain ⟨rfl, rfl, -⟩ := oid_injective s1 p1 f1 s p f
      (hs _ (mem_keys_of_mem_rows st _ _ _ hb)) (hs _ (mem_keys_of_mem_rows st _ _ _ ha)) hf1 hf e
    apply hne
    have h1 := (mem_rows_iff_portAt st _ _ _).1 ha
    have h2 := (mem_rows_iff_portAt st _ _ _).1 hb
    rw [h1] at h2
    cases h2
    rfl


/-! ## The response after a store update -/

theorem snmpHandler_insert (st : Store) (s : String) (m : PortMap) (pkt : SnmpPacket) :
    (snmpHandler (st.insert s m) pkt).1.Variables
      = switchObjects s m ++ (snmpHandler (st.erase s) pkt).1.Variables := by
  rw [snmpHandler_variables_entries, snmpHandler_variables_entries, AList.insert_entries,
    List.flatMap_cons]
  rfl

theorem rows_insert (st : Store) (s : String) (m : PortMap) :
    rows (st.insert s m) = (m.entries.map fun p => (s, p.1, p.2)) ++ rows (st.erase s) := by
  rw [rows, rows, AList.insert_entries, List.flatMap_cons]
  rfl

theorem portObjects_length (s p : String) (r : Port) : (portObjects s p r).length = 6 := rfl

theorem switchObjects_length (s : String) (m : PortMap) :
    (switchObjects s m).length = 6 * m.entries.length := by
  unfold switchObjects
  induction m.entries with
  | nil => rfl
  | cons p ps ih =>
    rw [List.flatMap_cons, List.length_append, ih, portObjects_length, List.length_cons]
    ring

theorem mem_switchObjects (s : String) (m : PortMap) (o : SnmpPDU) :
    o ∈ switchObjects s m ↔ ∃ p r, m.lookup p = some r ∧ o ∈ portObjects s p r := by
  simp only [switchObjects, List.mem_flatMap]
  constructor
  · rintro ⟨⟨p, r⟩, h1, h2⟩
    exact ⟨p, r, (mem_entries_iff_lookup m p r).1 h1, h2⟩
  · rintro ⟨p, r, h1, h2⟩
    exact ⟨⟨p, r⟩, (mem_entries_iff_lookup m p r).2 h1, h2⟩

theorem startsWithOid_iff (s : String) (o : SnmpPDU) :
    startsWithOid s o = true ↔ ∃ t, baseOID.data ++ '.' :: (s.data ++ '.' :: t) = o.Name.data := by
  simp only [startsWithOid, List.isPrefixOf_iff_prefix, List.IsPrefix, String.data_append]
  have e : ".".data = ['.'] := rfl
  simp [e]

theorem startsWithOid_of_name (s p f : String) (o : SnmpPDU)
    (h : o.Name = sprintfOid baseOID s p ++ f) : startsWithOid s o = true := by
  rw [startsWithOid_iff, h, sprintfOid_data]
  exact ⟨_, rfl⟩

theorem switch_of_startsWithOid (s s1 p f : String) (o : SnmpPDU) (hs : dotFree s)
    (hs1 : dotFree s1) (h : o.Name = sprintfOid baseOID s1 p ++ f)
    (hw : startsWithOid s o = true) : s = s1 := by
  rw [startsWithOid_iff, h, sprintfOid_data] at hw
  obtain ⟨t, ht⟩ := hw
  have h3 := List.append_cancel_left ht
  simp only [List.cons.injEq, true_and] at h3
  exact String.ext (split_first '.' _ _ _ _ hs hs1 h3).1


theorem mem_erase_objects (st : Store) (S : String) (pkt : SnmpPacket) (o : SnmpPDU)
    (h : o ∈ (snmpHandler (st.erase S) pkt).1.Variables) :
    ∃ s p f, s ≠ S ∧ s ∈ st.keys ∧ f ∈ fieldSuffixes ∧ o.Name = sprintfOid baseOID s p ++ f := by
  rw [snmpHandler_variables, mem_specObjects] at h
  obtain ⟨s, p, r, hr, ho⟩ := h
  obtain ⟨f, hf, e⟩ := mem_portObjects_name s p r o ho
  have hk := mem_keys_of_mem_rows _ _ _ _ hr
  rw [← AList.mem_keys, AList.mem_erase] at hk
  exact ⟨s, p, f, hk.1, AList.mem_keys.1 hk.2, hf, e⟩

theorem countP_startsWithOid_switchObjects (s : String) (m : PortMap) :
    (switchObjects s m).countP (startsWithOid s) = 6 * m.entries.length := by
  rw [← switchObjects_length, List.countP_eq_length]
  intro o ho
  obtain ⟨p, r, -, h⟩ := (mem_switchObjects s m o).1 ho
  obtain ⟨f, -, e⟩ := mem_portObjects_name s p r o h
  exact startsWithOid_of_name s p f o e

theorem countP_startsWithOid_erase (st : Store) (S : String) (pkt : SnmpPacket)
    (hs : ∀ s ∈ st.keys, dotFree s) (hS : dotFree S) :
    ((snmpHandler (st.erase S) pkt).1.Variables).countP (startsWithOid S) = 0 := by
  rw [List.countP_eq_zero]
  intro o ho hw
  obtain ⟨s, p, f, hne, hk, -, e⟩ := mem_erase_objects st S pkt o ho
  exact hne (switch_of_startsWithOid S s p f o hS (hs s hk) e hw).symm

theorem rows_filter_insert (st : Store) (s : String) (m : PortMap) :
    (rows (st.insert s m)).filter (fun t => decide (t.1 = s))
      = m.entries.map fun p => (s, p.1, p.2) := by
  rw [rows_insert, List.filter_append]
  have h1 : ((m.entries.map fun p => (s, p.1, p.2)).filter fun t => decide (t.1 = s))
      = m.entries.map fun p => (s, p.1, p.2) := by
    rw [List.filter_eq_self]
    intro t ht
    obtain ⟨p, -, rfl⟩ := List.mem_map.1 ht
    simp
  have h2 : ((rows (st.erase s)).filter fun t => decide (t.1 = s)) = [] := by
    rw [List.filter_eq_nil_iff]
    rintro ⟨s1, p, r⟩ ht
    have hk := mem_keys_of_mem_rows _ _ _ _ ht
    rw [← AList.mem_keys, AList.mem_erase] at hk
    simpa using hk.1
  rw [h1, h2, List.append_nil]

theorem rows_objects_length (l : List (String × String × Port)) :
    (l.flatMap fun t => portObjects t.1 t.2.1 t.2.2).length = 6 * l.length := by
  induction l with
  | nil => rfl
  | cons t l ih =>
    rw [List.flatMap_cons, List.length_append, ih, portObjects_length, List.length_cons]
    ring

/-! ## C4: a successful cycle -/

/-- **C4.** A successful collector cycle for switch `S` with fetched port map `m` replaces the
entry of `S` by `m` and touches no other entry.  The response of `snmpHandler` afterwards is, up
to order, the objects of `(S, m)` followed by the objects of the store without `S`; the objects
built from `S` are `6 * |m|` many (`12` for two ports); the triples visited for `S` are exactly
those of `m` and yield `6 * |m|` objects, so a port key of the previous entry that is absent from
`m` is visited no more.
When no switch name contains the separator the same holds of identifiers read as paths: exactly
`6 * |m|` returned identifiers lie under `S`, and none is an identifier of `S` with a port key
absent from `m`. -/
theorem successful_cycle_replaces (w : World) (S : Switch) (m : PortMap) (pkt : SnmpPacket) :
    (collectCycle S (Except.ok m) w).portStats.lookup S.Name = some m ∧
    (∀ s, s ≠ S.Name →
      (collectCycle S (Except.ok m) w).portStats.lookup s = w.portStats.lookup s) ∧
    ((snmpHandler (collectCycle S (Except.ok m) w).portStats pkt).1.Variables).Perm
      (switchObjects S.Name m ++ (snmpHandler (w.portStats.erase S.Name) pkt).1.Variables) ∧
    S.Name ∉ w.portStats.erase S.Name ∧
    (switchObjects S.Name m).length = 6 * m.entries.length ∧
    (m.entries.length = 2 → (switchObjects S.Name m).length = 12) ∧
    (∀ p r, (S.Name, p, r) ∈ rows (collectCycle S (Except.ok m) w).portStats
      ↔ m.lookup p = some r) ∧
    ((((rows (collectCycle S (Except.ok m) w).portStats).filter
        (fun t => decide (t.1 = S.Name))).flatMap
          fun t => portObjects t.1 t.2.1 t.2.2).length = 6 * m.entries.length) ∧
    (∀ old p, w.portStats.lookup S.Name = some old → p ∈ old → p ∉ m →
      ∀ r, (S.Name, p, r) ∉ rows (collectCycle S (Except.ok m) w).portStats) ∧
    ((∀ s ∈ w.portStats.keys, dotFree s) → dotFree S.Name →
      ((snmpHandler (collectCycle S (Except.ok m) w).portStats pkt).1.Variables).countP
          (startsWithOid S.Name) = 6 * m.entries.length ∧
      ∀ p, p ∉ m → ∀ f ∈ fieldSuffixes,
        ∀ o ∈ (snmpHandler (collectCycle S (Except.ok m) w).portStats pkt).1.Variables,
          o.Name ≠ sprintfOid baseOID S.Name p ++ f) := by
  have hrow : ∀ p r, (S.Name, p, r) ∈ rows (collectCycle S (Except.ok m) w).portStats
      ↔ m.lookup p = some r := by
    intro p r
    rw [mem_rows]
    simp only [collectCycle, AList.lookup_insert]
    constructor
    · rintro ⟨m1, h1, h2⟩
      cases h1
      exact h2
    · intro h
      exact ⟨m, rfl, h⟩
  refine ⟨AList.lookup_insert _, fun s hs => AList.lookup_insert_ne hs, ?_, ?_,
    switchObjects_length _ _, ?_, hrow, ?_, ?_, ?_⟩
  · simp only [collectCycle, snmpHandler_insert]
    exact List.Perm.refl _
  · rw [AList.mem_erase]
    exact fun h => h.1 rfl
  · intro h
    rw [switchObjects_length, h]
  · simp only [collectCycle]
    rw [rows_filter_insert, rows_objects_length, List.length_map]
  · intro old p _ _ hp r hr
    rw [hrow] at hr
    exact hp (AList.lookup_isSome.1 (by rw [hr]; rfl))
  · intro hs hS
    simp only [collectCycle, snmpHandler_insert]
    refine ⟨?_, ?_⟩
    · rw [List.countP_append, countP_startsWithOid_switchObjects,
        countP_startsWithOid_erase _ _ _ hs hS, Nat.add_zero]
    · intro p hp f hf o ho e
      rcases List.mem_append.1 ho with h | h
      · obtain ⟨p1, r, hl, h1⟩ := (mem_switchObjects _ _ _).1 h
        obtain ⟨f1, hf1, e1⟩ := mem_portObjects_name _ _ _ _ h1
        obtain ⟨-, rfl, -⟩ := oid_injective _ _ _ _ _ _ hS hS hf1 hf (e1.symm.trans e)
        exact hp (AList.lookup_isSome.1 (by rw [hl]; rfl))
      · obtain ⟨s, p1, f1, hne, hk, hf1, e1⟩ := mem_erase_objects _ _ _ _ h
        exact hne (oid_injective _ _ _ _ _ _ (hs s hk) hS hf1 hf (e1.symm.trans e)).1


/-! ## C5: cycles of different switches -/

theorem snmpHandler_perm_of_entries (st1 st2 : Store) (pkt1 pkt2 : SnmpPacket)
    (h : st1.entries.Perm st2.entries) :
    ((snmpHandler st1 pkt1).1.Variables).Perm (snmpHandler st2 pkt2).1.Variables := by
  rw [snmpHandler_variables_entries, snmpHandler_variables_entries]
  exact List.Perm.flatMap_right _ h

theorem erase_insert_entries (st : Store) (a b : String) (m : PortMap) (h : a ≠ b) :
    ((st.insert a m).erase b).entries = ⟨a, m⟩ :: ((st.erase a).erase b).entries := by
  show List.kerase b (st.insert a m).entries = _
  rw [AList.insert_entries, List.kerase_cons_ne h.symm]
  rfl

theorem snmpHandler_insert_insert (st : Store) (a b : String) (ma mb : PortMap)
    (pkt : SnmpPacket) (h : a ≠ b) :
    (snmpHandler ((st.insert a ma).insert b mb) pkt).1.Variables
      = switchObjects b mb ++ (switchObjects a ma
          ++ (snmpHandler ((st.erase a).erase b) pkt).1.Variables) := by
  rw [snmpHandler_insert, snmpHandler_variables_entries, snmpHandler_variables_entries,
    erase_insert_entries st a b ma h, List.flatMap_cons]

/-- **C5.** For switch names `A ≠ B` and fetched maps `mA`, `mB`: a successful cycle for `A`
leaves the entry of every other switch unchanged; the successful cycles for `A` and `B` applied
in either order yield the same store (every key has the same lookup, the entries are a
permutation of each other, the log is the same), in which the entry of `A` is `mA` and that of
`B` is `mB`; and a query afterwards returns, up to order, the complete objects of `(A, mA)`,
those of `(B, mB)` and those of the remaining switches, whichever order the cycles ran in. -/
theorem cycles_independent (w : World) (A B : Switch) (mA mB : PortMap) (pkt : SnmpPacket)
    (h : A.Name ≠ B.Name) :
    (∀ s, s ≠ A.Name →
      (collectCycle A (Except.ok mA) w).portStats.lookup s = w.portStats.lookup s) ∧
    (∀ s, (collectCycle B (Except.ok mB) (collectCycle A (Except.ok mA) w)).portStats.lookup s
      = (collectCycle A (Except.ok mA) (collectCycle B (Except.ok mB) w)).portStats.lookup s) ∧
    ((collectCycle B (Except.ok mB) (collectCycle A (Except.ok mA) w)).portStats.entries).Perm
      (collectCycle A (Except.ok mA) (collectCycle B (Except.ok mB) w)).portStats.entries ∧
    (collectCycle B (Except.ok mB) (collectCycle A (Except.ok mA) w)).log
      = (collectCycle A (Except.ok mA) (collectCycle B (Except.ok mB) w)).log ∧
    (collectCycle B (Except.ok mB) (collectCycle A (Except.ok mA) w)).portStats.lookup A.Name
      = some mA ∧
    (collectCycle B (Except.ok mB) (collectCycle A (Except.ok mA) w)).portStats.lookup B.Name
      = some mB ∧
    (collectCycle A (Except.ok mA) (collectCycle B (Except.ok mB) w)).portStats.lookup A.Name
      = some mA ∧
    (collectCycle A (Except.ok mA) (collectCycle B (Except.ok mB) w)).portStats.lookup B.Name
      = some mB ∧
    ((snmpHandler
        (collectCycle B (Except.ok mB) (collectCycle A (Except.ok mA) w)).portStats
        pkt).1.Variables).Perm
      (snmpHandler
        (collectCycle A (Except.ok mA) (collectCycle B (Except.ok mB) w)).portStats
        pkt).1.Variables ∧
    ((snmpHandler
        (collectCycle B (Except.ok mB) (collectCycle A (Except.ok mA) w)).portStats
        pkt).1.Variables).Perm
      (switchObjects A.Name mA ++ (switchObjects B.Name mB
        ++ (snmpHandler ((w.portStats.erase A.Name).erase B.Name) pkt).1.Variables)) := by
  have hperm : (((w.portStats.insert A.Name mA).insert B.Name mB).entries).Perm
      ((w.portStats.insert B.Name mB).insert A.Name mA).entries :=
    AList.insert_insert_of_ne _ h
  refine ⟨fun s hs => AList.lookup_insert_ne hs, fun s => AList.perm_lookup hperm, hperm, rfl,
    ?_, AList.lookup_insert _, AList.lookup_insert _, ?_,
    snmpHandler_perm_of_entries _ _ _ _ hperm, ?_⟩
  · simp only [collectCycle]
    rw [AList.lookup_insert_ne h, AList.lookup_insert]
  · simp only [collectCycle]
    rw [AList.lookup_insert_ne h.symm, AList.lookup_insert]
  · simp only [collectCycle]
    rw [snmpHandler_insert_insert _ _ _ _ _ _ h]
    exact List.perm_append_comm_assoc _ _ _


/-! ## The initial store and runs of the collectors -/

theorem initLoop_cons (sw : Switch) (sws : List Switch) (port : Nat) (comm : String) (w : World) :
    initLoop ⟨sw :: sws, port, comm⟩ w
      = initLoop ⟨sws, port, comm⟩
          { w with portStats := w.portStats.insert sw.Name (∅ : PortMap) } := rfl

theorem initLoop_lookup (config : Config) (w : World) (s : String) :
    (initLoop config w).portStats.lookup s
      = if s ∈ config.Switches.map Switch.Name then some ∅ else w.portStats.lookup s := by
  obtain ⟨sws, port, comm⟩ := config
  induction sws generalizing w with
  | nil => simp [initLoop]
  | cons sw sws ih =>
    rw [initLoop_cons, ih]
    simp only [List.map_cons, List.mem_cons]
    by_cases h1 : s ∈ sws.map Switch.Name
    · simp [h1]
    · by_cases h2 : s = sw.Name
      · subst h2
        simp [h1, AList.lookup_insert]
      · simp [h1, h2, AList.lookup_insert_ne h2]

theorem initLoop_log (config : Config) (w : World) : (initLoop config w).log = w.log := by
  obtain ⟨sws, port, comm⟩ := config
  induction sws generalizing w with
  | nil => rfl
  | cons sw sws ih => rw [initLoop_cons, ih]

theorem mainInit_lookup (config : Config) (s : String) :
    (mainInit config).portStats.lookup s
      = if s ∈ config.Switches.map Switch.Name then some ∅ else none := by
  rw [mainInit, initLoop_lookup]
  rfl

theorem runCycles_cons (ev : Switch × Except String PortMap)
    (evs : List (Switch × Except String PortMap)) (w : World) :
    runCycles (ev :: evs) w = runCycles evs (collectCycle ev.1 ev.2 w) := rfl

theorem collectCycle_lookup (sw : Switch) (fetched : Except String PortMap) (w : World)
    (s : String) :
    (collectCycle sw fetched w).portStats.lookup s
      = match fetched with
        | Except.ok m => if s = sw.Name then some m else w.portStats.lookup s
        | Except.error _ => w.portStats.lookup s := by
  cases fetched with
  | error e => rfl
  | ok m =>
    simp only [collectCycle]
    by_cases h : s = sw.Name
    · subst h
      simp [AList.lookup_insert]
    · simp [h, AList.lookup_insert_ne h]

theorem runCycles_lookup (events : List (Switch × Except String PortMap)) (w : World)
    (s : String) :
    (runCycles events w).portStats.lookup s
      = match lastFetched s events with
        | some m => some m
        | none => w.portStats.lookup s := by
  induction events generalizing w with
  | nil => rfl
  | cons ev evs ih =>
    rw [runCycles_cons, ih, lastFetched]
    cases h : lastFetched s evs with
    | some m => rfl
    | none =>
      simp only [collectCycle_lookup]
      obtain ⟨sw, fetched⟩ := ev
      cases fetched with
      | error e => rfl
      | ok m =>
        by_cases h2 : sw.Name = s
        · simp [h2]
        · have h3 : ¬ s = sw.Name := fun e => h2 e.symm
          simp [h2, h3]

theorem lastFetched_some (s : String) (events : List (Switch × Except String PortMap))
    (m : PortMap) (h : lastFetched s events = some m) :
    ∃ ev ∈ events, ev.1.Name = s ∧ ev.2 = Except.ok m := by
  induction events with
  | nil => simp [lastFetched] at h
  | cons ev evs ih =>
    rw [lastFetched] at h
    cases h1 : lastFetched s evs with
    | some m1 =>
      rw [h1] at h
      cases h
      obtain ⟨e, he, h2⟩ := ih h1
      exact ⟨e, List.mem_cons_of_mem _ he, h2⟩
    | none =>
      rw [h1] at h
      obtain ⟨sw, fetched⟩ := ev
      cases fetched with
      | error e => simp at h
      | ok m2 =>
        simp only at h
        split_ifs at h with h3
        cases h
        exact ⟨_, List.mem_cons_self _ _, h3, rfl⟩


theorem mem_iff_lookup_isSome (st : Store) (s : String) :
    s ∈ st ↔ (st.lookup s).isSome = true := AList.lookup_isSome.symm

/-! ## C6: configured switches are never missing -/

/-- **C6.** After the initialisation loop of `main` every configured switch name is a key of the
store; every collector cycle, successful or failed, preserves that; hence after any interleaving
of cycles of configured switches every configured name is a key, mapped to the port map of its
last successful fetch or, if there was none, to the empty map, and the keys of the store are
exactly the configured names. -/
theorem configured_switches_present (config : Config)
    (events : List (Switch × Except String PortMap))
    (hev : ∀ ev ∈ events, ev.1 ∈ config.Switches) :
    (∀ sw ∈ config.Switches, sw.Name ∈ (mainInit config).portStats) ∧
    (∀ (w : World) (sw : Switch) (fetched : Except String PortMap),
      (∀ c ∈ config.Switches, c.Name ∈ w.portStats) →
        ∀ c ∈ config.Switches, c.Name ∈ (collectCycle sw fetched w).portStats) ∧
    (∀ sw ∈ config.Switches, sw.Name ∈ (runCycles events (mainInit config)).portStats) ∧
    (∀ sw ∈ config.Switches,
      (runCycles events (mainInit config)).portStats.lookup sw.Name
        = some ((lastFetched sw.Name events).getD ∅)) ∧
    (∀ s, s ∈ (runCycles events (mainInit config)).portStats
      ↔ s ∈ config.Switches.map Switch.Name) := by
  have hlook : ∀ sw ∈ config.Switches,
      (runCycles events (mainInit config)).portStats.lookup sw.Name
        = some ((lastFetched sw.Name events).getD ∅) := by
    intro sw hsw
    rw [runCycles_lookup, mainInit_lookup, if_pos (List.mem_map_of_mem _ hsw)]
    cases lastFetched sw.Name events <;> rfl
  refine ⟨?_, ?_, ?_, hlook, ?_⟩
  · intro sw hsw
    rw [mem_iff_lookup_isSome, mainInit_lookup, if_pos (List.mem_map_of_mem _ hsw)]
    rfl
  · intro w sw fetched hw c hc
    have h := hw c hc
    rw [mem_iff_lookup_isSome] at h ⊢
    rw [collectCycle_lookup]
    cases fetched with
    | error e => exact h
    | ok m =>
      simp only
      split_ifs
      · rfl
      · exact h
  · intro sw hsw
    rw [mem_iff_lookup_isSome, hlook sw hsw]
    rfl
  · intro s
    constructor
    · intro hs
      by_contra hn
      rw [mem_iff_lookup_isSome, runCycles_lookup, mainInit_lookup, if_neg hn] at hs
      cases h : lastFetched s events with
      | none => rw [h] at hs; cases hs
      | some m =>
        obtain ⟨ev, he, hname, -⟩ := lastFetched_some s events m h
        exact hn (List.mem_map.2 ⟨ev.1, hev ev he, hname⟩)
    · intro hs
      obtain ⟨sw, hsw, rfl⟩ := List.mem_map.1 hs
      rw [mem_iff_lookup_isSome, hlook sw hsw]
      rfl

/-! ## C7: a query before any successful poll -/

theorem snmpHandler_of_empty_ports (st : Store) (pkt : SnmpPacket)
    (h : ∀ sw ∈ st.entries, sw.2.entries = []) :
    snmpHandler st pkt = (⟨"", 0, []⟩, none) := by
  have hv : (snmpHandler st pkt).1.Variables = [] := by
    rw [snmpHandler_variables_entries, List.flatMap_eq_nil_iff]
    intro sw hsw
    rw [switchObjects, h sw hsw]
    rfl
  have hs : snmpHandler st pkt = (⟨"", 0, (snmpHandler st pkt).1.Variables⟩, none) := rfl
  rw [hs, hv]

/-- **C7.** For every configuration (the empty list and repeated names included) the store built
by the initialisation loop of `main` maps each configured name to the empty port map and holds
no other port map, and `snmpHandler` answers on it with an empty list of variables and a `nil`
error; more generally `snmpHandler` returns the empty list and no error on every store all of
whose port maps are empty. -/
theorem initial_query_empty (config : Config) (pkt : SnmpPacket) :
    (∀ sw ∈ config.Switches, (mainInit config).portStats.lookup sw.Name = some ∅) ∧
    (∀ s m, (mainInit config).portStats.lookup s = some m → m = ∅) ∧
    (snmpHandler (mainInit config).portStats pkt).1.Variables = [] ∧
    (snmpHandler (mainInit config).portStats pkt).2 = none ∧
    (∀ st : Store, (∀ sw ∈ st.entries, sw.2.entries = []) →
      (snmpHandler st pkt).1.Variables = [] ∧ (snmpHandler st pkt).2 = none) := by
  have hinit : ∀ s m, (mainInit config).portStats.lookup s = some m → m = ∅ := by
    intro s m h
    rw [mainInit_lookup] at h
    split_ifs at h
    cases h
    rfl
  have hgen : ∀ st : Store, (∀ sw ∈ st.entries, sw.2.entries = []) →
      (snmpHandler st pkt).1.Variables = [] ∧ (snmpHandler st pkt).2 = none := by
    intro st h
    rw [snmpHandler_of_empty_ports st pkt h]
    exact ⟨rfl, rfl⟩
  have h0 := hgen (mainInit config).portStats (fun sw hsw => by
    obtain ⟨s, m⟩ := sw
    rw [hinit s m ((mem_entries_iff_lookup _ s m).1 hsw)]
    rfl)
  refine ⟨?_, hinit, h0.1, h0.2, hgen⟩
  intro sw hsw
  rw [mainInit_lookup, if_pos (List.mem_map_of_mem _ hsw)]

/-! ## C8: the response depends on the store alone -/

/-- **C8.** For every store and every two requests `r1`, `r2`, `snmpHandler` returns a `nil` error
for both and the same response, hence the same objects: the full object set of the store,
whatever the request asked for.  The same holds up to order when the two runs visit the maps
in different orders, that is for any two association lists that answer every port read
alike. -/
theorem response_depends_on_store_alone (st : Store) (r1 r2 : SnmpPacket) :
    (snmpHandler st r1).2 = none ∧ (snmpHandler st r2).2 = none ∧
    snmpHandler st r1 = snmpHandler st r2 ∧
    ((snmpHandler st r1).1.Variables).Perm (snmpHandler st r2).1.Variables ∧
    ((snmpHandler st r1).1.Variables).Perm (specObjects st) ∧
    (∀ st2 : Store, (∀ s p, portAt st s p = portAt st2 s p) →
      ((snmpHandler st r1).1.Variables).Perm (snmpHandler st2 r2).1.Variables) := by
  refine ⟨rfl, rfl, rfl, List.Perm.refl _, ?_, ?_⟩
  · rw [snmpHandler_variables]
  · intro st2 h
    rw [snmpHandler_variables, snmpHandler_variables]
    exact specObjects_perm_of_portAt st st2 h

/-! ## C9: counters -/

theorem uint64_eq_emod (c : Int) : (uint64 c : Int) = c % 2 ^ 64 := by
  unfold uint64
  exact Int.toNat_of_nonneg (Int.emod_nonneg _ (by norm_num))

theorem uint64_lt (c : Int) : uint64 c < 2 ^ 64 := by
  have h := uint64_eq_emod c
  have h2 : c % 2 ^ 64 < 2 ^ 64 := Int.emod_lt_of_pos _ (by norm_num)
  omega

theorem uint64_of_nonneg (c : Int) (h0 : 0 ≤ c) (h1 : c < 2 ^ 63) : (uint64 c : Int) = c := by
  rw [uint64_eq_emod]
  omega

theorem uint64_of_neg (k : Nat) (h0 : 0 < k) (h1 : k ≤ 2 ^ 63) :
    uint64 (-(k : Int)) = 2 ^ 64 - k := by
  have h := uint64_eq_emod (-(k : Int))
  omega

theorem mem_snmpHandler_of_lookup (st : Store) (pkt : SnmpPacket) (s p : String) (m : PortMap)
    (r : Port) (hs : st.lookup s = some m) (hp : m.lookup p = some r) (o : SnmpPDU)
    (ho : o ∈ portObjects s p r) : o ∈ (snmpHandler st pkt).1.Variables := by
  rw [snmpHandler_variables, mem_specObjects]
  exact ⟨s, p, r, (mem_rows st s p r).2 ⟨m, hs, hp⟩, ho⟩

/-- **C9.** For every record `r` stored under port key `p` of switch `s`, the response contains
for each of the four counters `c` of `r` the `Counter64` object whose value is `c` reduced modulo
`2^64`, and the handler returns no error.  The conversion `uint64` is reduction modulo `2^64`,
with values below `2^64`: it is the identity on `0 ≤ c < 2^63`, sends `-k` to `2^64 - k` for
`0 < k ≤ 2^63` (so `-1` to `18446744073709551615`), and sends no negative 64-bit value to `0`: a
negative counter is neither clamped nor rejected. -/
theorem counters_unsigned (st : Store) (pkt : SnmpPacket) (s p : String) (m : PortMap)
    (r : Port) (hs : st.lookup s = some m) (hp : m.lookup p = some r) :
    (⟨sprintfOid baseOID s p ++ ".txGoodPkt", Asn1BER.Counter64,
        PDUValue.uint64 (r.TxGoodPkt % 2 ^ 64).toNat⟩ : SnmpPDU)
      ∈ (snmpHandler st pkt).1.Variables ∧
    (⟨sprintfOid baseOID s p ++ ".txBadPkt", Asn1BER.Counter64,
        PDUValue.uint64 (r.TxBadPkt % 2 ^ 64).toNat⟩ : SnmpPDU)
      ∈ (snmpHandler st pkt).1.Variables ∧
    (⟨sprintfOid baseOID s p ++ ".rxGoodPkt", Asn1BER.Counter64,
        PDUValue.uint64 (r.RxGoodPkt % 2 ^ 64).toNat⟩ : SnmpPDU)
      ∈ (snmpHandler st pkt).1.Variables ∧
    (⟨sprintfOid baseOID s p ++ ".rxBadPkt", Asn1BER.Counter64,
        PDUValue.uint64 (r.RxBadPkt % 2 ^ 64).toNat⟩ : SnmpPDU)
      ∈ (snmpHandler st pkt).1.Variables ∧
    (snmpHandler st pkt).2 = none ∧
    (∀ c : Int, (uint64 c : Int) = c % 2 ^ 64) ∧
    (∀ c : Int, uint64 c < 2 ^ 64) ∧
    (∀ c : Int, 0 ≤ c → c < 2 ^ 63 → (uint64 c : Int) = c) ∧
    (∀ k : Nat, 0 < k → k ≤ 2 ^ 63 → uint64 (-(k : Int)) = 2 ^ 64 - k) ∧
    (∀ c : Int, -2 ^ 63 ≤ c → c < 0 → uint64 c ≠ 0) ∧
    uint64 (-1) = 18446744073709551615 := by
  have hm := mem_snmpHandler_of_lookup st pkt s p m r hs hp
  refine ⟨hm _ ?_, hm _ ?_, hm _ ?_, hm _ ?_, rfl, uint64_eq_emod, uint64_lt, uint64_of_nonneg,
    uint64_of_neg, ?_, by decide⟩
  · simp [portObjects, sprintfOid_append, uint64]
  · simp [portObjects, sprintfOid_append, uint64]
  · simp [portObjects, sprintfOid_append, uint64]
  · simp [portObjects, sprintfOid_append, uint64]
  · intro c h0 h1
    have h := uint64_eq_emod c
    omega

/-! ## C10: identifiers do not collide -/

/-- **C10.** In a store in which no switch name and no port key contains the separator `.`, the
identifiers of the objects returned by `snmpHandler` are pairwise distinct (so are the objects);
every returned identifier is `sprintfOid baseOID s p ++ f` for a separator-free switch name `s`
and port key `p` of the store and one of the six field suffixes `f`; and on separator-free
names the map from (switch name, port key, field) to the identifier is injective, so the
identifier determines the three. -/
theorem identifiers_distinct (st : Store) (pkt : SnmpPacket)
    (hs : ∀ s ∈ st.keys, dotFree s)
    (hp : ∀ sw ∈ st.entries, ∀ p ∈ sw.2.keys, dotFree p) :
    (((snmpHandler st pkt).1.Variables).map SnmpPDU.Name).Nodup ∧
    ((snmpHandler st pkt).1.Variables).Nodup ∧
    (∀ o ∈ (snmpHandler st pkt).1.Variables, ∃ s p f, dotFree s ∧ dotFree p ∧
      f ∈ fieldSuffixes ∧ o.Name = sprintfOid baseOID s p ++ f ∧
      ∃ m r, st.lookup s = some m ∧ m.lookup p = some r ∧ o ∈ portObjects s p r) ∧
    (∀ s p f s1 p1 f1 : String, dotFree s → dotFree p → dotFree s1 → dotFree p1 →
      f ∈ fieldSuffixes → f1 ∈ fieldSuffixes →
      sprintfOid baseOID s p ++ f = sprintfOid baseOID s1 p1 ++ f1 →
      s = s1 ∧ p = p1 ∧ f = f1) := by
  have hn : (((snmpHandler st pkt).1.Variables).map SnmpPDU.Name).Nodup := by
    rw [snmpHandler_variables]
    exact names_nodup st hs
  refine ⟨hn, List.Nodup.of_map _ hn, ?_, ?_⟩
  · intro o ho
    rw [snmpHandler_variables, mem_specObjects] at ho
    obtain ⟨s, p, r, hr, hmem⟩ := ho
    obtain ⟨m, hm, hl⟩ := (mem_rows st s p r).1 hr
    obtain ⟨f, hf, e⟩ := mem_portObjects_name s p r o hmem
    have hpm : p ∈ m.keys := by
      rw [← AList.mem_keys, ← AList.lookup_isSome, hl]
      rfl
    exact ⟨s, p, f, hs s (mem_keys_of_mem_rows st s p r hr),
      hp ⟨s, m⟩ ((mem_entries_iff_lookup st s m).2 hm) p hpm, hf, e, m, r, hm, hl, hmem⟩
  · intro s p f s1 p1 f1 h1 _ h2 _ hf hf1 e
    exact oid_injective s p f s1 p1 f1 h1 h2 hf hf1 e

/-- Without the restriction on names identifiers do collide: the switch `"a"` with port `"b.c"`
and the switch `"a.b"` with port `"c"` produce the same six identifiers. -/
theorem separator_collision :
    ¬ (((snmpHandler dottedStore sampleRequest).1.Variables).map SnmpPDU.Name).Nodup := by
  decide

/-! ## Evaluations on the sample data -/

/-- On the sample state the cycle that replaces the ports `{p1, p2}` of `"sw1"` by `{p2}` leaves
exactly six identifiers under `"sw1"`. -/
theorem successful_cycle_replaces_witness :
    (∀ s ∈ sampleWorld.portStats.keys, dotFree s) ∧ dotFree sampleSwitch1.Name ∧
    ((snmpHandler (collectCycle sampleSwitch1 (Except.ok samplePorts2) sampleWorld).portStats
        sampleRequest).1.Variables).countP (startsWithOid sampleSwitch1.Name)
      = 6 * samplePorts2.entries.length :=
  ⟨by decide, by decide,
    ((successful_cycle_replaces sampleWorld sampleSwitch1 samplePorts2
      sampleRequest).2.2.2.2.2.2.2.2.2 (by decide) (by decide)).1⟩

/-- On the sample switches the two orders of their successful cycles give the same lookups. -/
theorem cycles_independent_witness :
    sampleSwitch1.Name ≠ sampleSwitch2.Name ∧
    ∀ s,
      (collectCycle sampleSwitch2 (Except.ok samplePorts2)
        (collectCycle sampleSwitch1 (Except.ok samplePorts12)
          (mainInit sampleConfig))).portStats.lookup s
      = (collectCycle sampleSwitch1 (Except.ok samplePorts12)
        (collectCycle sampleSwitch2 (Except.ok samplePorts2)
          (mainInit sampleConfig))).portStats.lookup s :=
  ⟨by decide,
    (cycles_independent (mainInit sampleConfig) sampleSwitch1 sampleSwitch2 samplePorts12
      samplePorts2 sampleRequest (by decide)).2.1⟩

/-- After the sample run, which includes a failed cycle, both configured names are keys. -/
theorem configured_switches_present_witness :
    (∀ ev ∈ sampleEvents, ev.1 ∈ sampleConfig.Switches) ∧
    ∀ sw ∈ sampleConfig.Switches,
      sw.Name ∈ (runCycles sampleEvents (mainInit sampleConfig)).portStats :=
  ⟨by decide, (configured_switches_present sampleConfig sampleEvents (by decide)).2.2.1⟩

/-- The initial store of a configuration with a repeated name answers with no variables. -/
theorem initial_query_empty_witness :
    (∀ sw ∈ (mainInit repeatedConfig).portStats.entries, sw.2.entries = []) ∧
    (snmpHandler (mainInit repeatedConfig).portStats sampleRequest).1.Variables = [] ∧
    (snmpHandler (mainInit repeatedConfig).portStats sampleRequest).2 = none :=
  ⟨by decide,
    (initial_query_empty repeatedConfig sampleRequest).2.2.2.2
      (mainInit repeatedConfig).portStats (by decide)⟩

/-- A record whose bad-packet counter is `-1` is published with that counter reduced modulo
`2^64`. -/
theorem counters_unsigned_witness :
    (collectCycle sampleSwitch1 (Except.ok samplePorts2) sampleWorld).portStats.lookup "sw1"
      = some samplePorts2 ∧
    samplePorts2.lookup "p2" = some (samplePort "Port 2" 35 (-1) 45 2) ∧
    (⟨sprintfOid baseOID "sw1" "p2" ++ ".txBadPkt", Asn1BER.Counter64,
        PDUValue.uint64 ((samplePort "Port 2" 35 (-1) 45 2).TxBadPkt % 2 ^ 64).toNat⟩ : SnmpPDU)
      ∈ (snmpHandler (collectCycle sampleSwitch1 (Except.ok samplePorts2) sampleWorld).portStats
          sampleRequest).1.Variables :=
  ⟨rfl, rfl,
    (counters_unsigned
      (collectCycle sampleSwitch1 (Except.ok samplePorts2) sampleWorld).portStats sampleRequest
      "sw1" "p2" samplePorts2 (samplePort "Port 2" 35 (-1) 45 2) rfl rfl).2.1⟩

/-- The identifiers published for the sample state are pairwise distinct. -/
theorem identifiers_distinct_witness :
    (∀ s ∈ sampleWorld.portStats.keys, dotFree s) ∧
    (∀ sw ∈ sampleWorld.portStats.entries, ∀ p ∈ sw.2.keys, dotFree p) ∧
    (((snmpHandler sampleWorld.portStats sampleRequest).1.Variables).map SnmpPDU.Name).Nodup :=
  ⟨by decide, by decide,
    (identifiers_distinct sampleWorld.portStats sampleRequest (by decide) (by decide)).1⟩

end CheapSwitchSnmp
